import Mathlib

/-!
Verification of the firefly raytracing-demo core: the WGSL path-tracing
kernel (`src/examples/raytracing-demo/src/shaders/raytracing.wgsl`) and the
host-side renderer (`src/examples/raytracing-demo/src/core/Raytracer.ts`).

Conventions of the shallow embedding:
* WGSL `u32` values are `Nat` reduced `% 2^32` wherever overflow can occur.
* WGSL `f32` arithmetic is modelled exactly over `ℝ` (for the geometric
  kernel, which uses `sqrt`) and over `ℚ` (for the random-number generator,
  where every operation is rational), ignoring rounding.
* The per-invocation mutable RNG state is threaded explicitly: the stream
  of successive `rand()` results is a function `draws : ℕ → ℝ` together
  with a cursor `k : ℕ`; each `rand()` call reads `draws k` and advances
  the cursor by one, exactly matching the call order in the source.
* The unbounded WGSL `loop`s of the rejection samplers are unrolled with an
  explicit fuel argument; running out of fuel yields the source's trailing
  `return vec3f(0.0)` value, which in the source itself is unreachable
  because the loop has no iteration cap.
-/

namespace Firefly

/-- A WGSL `vec3f`, modelled with exact real components. -/
@[ext]
structure Vec3 where
  x : ℝ
  y : ℝ
  z : ℝ

namespace Vec3

/-- Componentwise addition, `a + b` in WGSL. -/
def add (a b : Vec3) : Vec3 := ⟨a.x + b.x, a.y + b.y, a.z + b.z⟩

/-- Componentwise subtraction, `a - b` in WGSL. -/
def sub (a b : Vec3) : Vec3 := ⟨a.x - b.x, a.y - b.y, a.z - b.z⟩

/-- Componentwise negation, `-a` in WGSL. -/
def neg (a : Vec3) : Vec3 := ⟨-a.x, -a.y, -a.z⟩

/-- Componentwise product, `a * b` on WGSL vectors. -/
def mul (a b : Vec3) : Vec3 := ⟨a.x * b.x, a.y * b.y, a.z * b.z⟩

/-- Scalar multiple, `s * v` in WGSL. -/
def smul (s : ℝ) (a : Vec3) : Vec3 := ⟨s * a.x, s * a.y, s * a.z⟩

instance : Add Vec3 := ⟨add⟩
instance : Sub Vec3 := ⟨sub⟩
instance : Neg Vec3 := ⟨neg⟩
instance : Mul Vec3 := ⟨mul⟩
instance : SMul ℝ Vec3 := ⟨smul⟩
instance : Zero Vec3 := ⟨⟨0, 0, 0⟩⟩

/-- WGSL `dot(a, b)`. -/
def dot (a b : Vec3) : ℝ := a.x * b.x + a.y * b.y + a.z * b.z

/-- WGSL `length(a)`. -/
noncomputable def length (a : Vec3) : ℝ := Real.sqrt (dot a a)

/-- WGSL `normalize(a)` (division by zero for the zero vector, as in WGSL
the result is then unspecified; over `ℝ`, `x / 0 = 0`). -/
noncomputable def normalize (a : Vec3) : Vec3 := (1 / length a) • a

end Vec3

/-! ## The random number generator (`pcg_hash` / `rand`), lines 54-66

All arithmetic here is exact `u32` / rational arithmetic, so the embedding
is fully computable. -/

/-- The WGSL `pcg_hash` function on `u32`, embedded on `Nat` with explicit
reduction `% 2^32` at each step that can overflow. -/
def pcg_hash (input : ℕ) : ℕ :=
  let state := (input * 747796405 + 2891336453) % 2 ^ 32
  let word := (((state >>> ((state >>> 28) + 4)) ^^^ state) * 277803737) % 2 ^ 32
  (word >>> 22) ^^^ word

/-- One call of the WGSL `rand()`: the private `rngState` is hashed in
place and the new state, divided by `0xffffffff`, is returned.  The pair is
(new state, returned value); the value is exact rational arithmetic. -/
def randStep (rngState : ℕ) : ℕ × ℚ :=
  let s := pcg_hash rngState
  (s, (s : ℚ) / 4294967295)

/-- The rng state after `n` calls of `rand()` starting from `seed`. -/
def rngStateAt (seed : ℕ) : ℕ → ℕ
  | 0 => seed
  | n + 1 => pcg_hash (rngStateAt seed n)

/-- The value returned by the `(i+1)`-st call of `rand()` after seeding
with `seed`, as an exact rational. -/
def randValue (seed : ℕ) (i : ℕ) : ℚ := (randStep (rngStateAt seed i)).2

/-! ## Rejection samplers (`rand_in_unit_sphere` / `rand_in_unit_disk`),
lines 68-90

The successive `rand()` results are abstracted as a stream
`draws : ℕ → ℝ` with a cursor `k`; each `rand()` call reads one stream
element, in source call order.  The WGSL `loop` has no iteration cap, so
it is unrolled with explicit fuel; `none` after `fuel` trials means the
source loop is still running after `fuel` iterations. -/

/-- One iteration's candidate point of `rand_in_unit_sphere`: the three
`rand() * 2.0 - 1.0` components, consuming three draws starting at `k`. -/
def sphereTrial (draws : ℕ → ℝ) (k : ℕ) : Vec3 :=
  ⟨draws k * 2 - 1, draws (k + 1) * 2 - 1, draws (k + 2) * 2 - 1⟩

/-- The `loop` body of `rand_in_unit_sphere`, unrolled `fuel` times:
returns the first candidate with `dot(p, p) < 1.0` together with the
cursor after it, or `none` if no candidate within `fuel` iterations
satisfies the test (the source loop would still be spinning). -/
noncomputable def sphereSearchLoop (draws : ℕ → ℝ) : ℕ → ℕ → Option (Vec3 × ℕ)
  | 0, _ => none
  | fuel + 1, k =>
    let p := sphereTrial draws k
    if Vec3.dot p p < 1 then some (p, k + 3) else sphereSearchLoop draws fuel (k + 3)

/-- WGSL `rand_in_unit_sphere()`.  The out-of-fuel value is the source's
trailing `return vec3f(0.0)`, which in the source is unreachable: the
`loop` has no iteration cap. -/
noncomputable def rand_in_unit_sphere (draws : ℕ → ℝ) (fuel k : ℕ) : Vec3 × ℕ :=
  match sphereSearchLoop draws fuel k with
  | some r => r
  | none => (⟨0, 0, 0⟩, k + 3 * fuel)

/-- WGSL `rand_unit_vector()`. -/
noncomputable def rand_unit_vector (draws : ℕ → ℝ) (fuel k : ℕ) : Vec3 × ℕ :=
  let r := rand_in_unit_sphere draws fuel k
  (Vec3.normalize r.1, r.2)

/-- One iteration's candidate point of `rand_in_unit_disk` (z = 0),
consuming two draws starting at `k`. -/
def diskTrial (draws : ℕ → ℝ) (k : ℕ) : Vec3 :=
  ⟨draws k * 2 - 1, draws (k + 1) * 2 - 1, 0⟩

/-- The `loop` body of `rand_in_unit_disk`, unrolled `fuel` times. -/
noncomputable def diskSearchLoop (draws : ℕ → ℝ) : ℕ → ℕ → Option (Vec3 × ℕ)
  | 0, _ => none
  | fuel + 1, k =>
    let p := diskTrial draws k
    if Vec3.dot p p < 1 then some (p, k + 2) else diskSearchLoop draws fuel (k + 2)

/-- WGSL `rand_in_unit_disk()`; out-of-fuel value as for the sphere
sampler. -/
noncomputable def rand_in_unit_disk (draws : ℕ → ℝ) (fuel k : ℕ) : Vec3 × ℕ :=
  match diskSearchLoop draws fuel k with
  | some r => r
  | none => (⟨0, 0, 0⟩, k + 2 * fuel)

/-! ## Material math helpers, lines 92-112 -/

/-- WGSL `near_zero(v)`: all components below `1e-8` in magnitude. -/
def near_zero (v : Vec3) : Prop :=
  |v.x| < 1 / 10 ^ 8 ∧ |v.y| < 1 / 10 ^ 8 ∧ |v.z| < 1 / 10 ^ 8

noncomputable instance (v : Vec3) : Decidable (near_zero v) := by
  unfold near_zero; infer_instance

/-- WGSL `reflect(v, n)`. -/
def reflect (v n : Vec3) : Vec3 := v - (2 * Vec3.dot v n) • n

/-- WGSL `refract(uv, n, etai_over_etat)`. -/
noncomputable def refract (uv n : Vec3) (etaiOverEtat : ℝ) : Vec3 :=
  let cosTheta := min (Vec3.dot (-uv) n) 1
  let rOutPerp := etaiOverEtat • (uv + cosTheta • n)
  let rOutParallel := (-Real.sqrt |1 - Vec3.dot rOutPerp rOutPerp|) • n
  rOutPerp + rOutParallel

/-- WGSL `reflectance(cosine, ref_idx)`: the Schlick approximation. -/
noncomputable def reflectance (cosine refIdx : ℝ) : ℝ :=
  let r0 := (1 - refIdx) / (1 + refIdx)
  let r0sq := r0 * r0
  r0sq + (1 - r0sq) * (1 - cosine) ^ (5 : ℕ)

/-! ## Scene records (`SphereData`, `MaterialData`, `HitRecord`) -/

/-- The kernel-side `SphereData` record (padding omitted). -/
structure SphereData where
  center : Vec3
  radius : ℝ
  materialIndex : ℕ

/-- The kernel-side `MaterialData` record (padding omitted);
`materialType`: 0 Lambertian, 1 Metal, 2 Dielectric. -/
structure MaterialData where
  albedo : Vec3
  materialType : ℕ
  fuzz : ℝ
  refractionIndex : ℝ

/-- The kernel-side `HitRecord`.  The source returns a record with
`t = -1.0` (other fields unspecified) on a miss; the embedding models a
miss as `none`. -/
structure HitRecord where
  t : ℝ
  p : Vec3
  normal : Vec3
  frontFace : Bool
  materialIndex : ℕ

/-! ## Intersection engine (`hitSphere` / `closestHit`), lines 122-172 -/

/-- WGSL `hitSphere`: solves the ray-sphere quadratic with the half-b
optimization; `-1.0` signals no valid root. -/
noncomputable def hitSphere (s : SphereData) (o d : Vec3) (tMin tMax : ℝ) : ℝ :=
  let oc := o - s.center
  let a := Vec3.dot d d
  let halfB := Vec3.dot oc d
  let c := Vec3.dot oc oc - s.radius * s.radius
  let discriminant := halfB * halfB - a * c
  if discriminant < 0 then -1
  else
    let sqrtd := Real.sqrt discriminant
    let root1 := (-halfB - sqrtd) / a
    if root1 < tMin ∨ root1 > tMax then
      let root2 := (-halfB + sqrtd) / a
      if root2 < tMin ∨ root2 > tMax then -1 else root2
    else root1

/-- The `a = dot(rayDir, rayDir)` coefficient of the ray-sphere
quadratic in `hitSphere`. -/
def hsA (d : Vec3) : ℝ := Vec3.dot d d

/-- The `halfB = dot(oc, rayDir)` coefficient (half-b optimization). -/
def hsHalfB (s : SphereData) (o d : Vec3) : ℝ := Vec3.dot (o - s.center) d

/-- The `c = dot(oc, oc) - radius²` coefficient. -/
def hsC (s : SphereData) (o : Vec3) : ℝ :=
  Vec3.dot (o - s.center) (o - s.center) - s.radius * s.radius

/-- The discriminant `halfB² - a·c` of `hitSphere`. -/
def hsDisc (s : SphereData) (o d : Vec3) : ℝ :=
  hsHalfB s o d * hsHalfB s o d - hsA d * hsC s o

/-- The smaller quadratic root `(-halfB - sqrtd) / a` tested first by
`hitSphere`. -/
noncomputable def hsR1 (s : SphereData) (o d : Vec3) : ℝ :=
  (-hsHalfB s o d - Real.sqrt (hsDisc s o d)) / hsA d

/-- The larger quadratic root `(-halfB + sqrtd) / a` tested second. -/
noncomputable def hsR2 (s : SphereData) (o d : Vec3) : ℝ :=
  (-hsHalfB s o d + Real.sqrt (hsDisc s o d)) / hsA d

/-- The hit record built by the accepted-hit branch of `closestHit`
(lines 156-163) for sphere `s` at parameter `t`: point, outward normal,
front-face test against the outward normal, and the select-based flip. -/
noncomputable def mkHitRecord (s : SphereData) (o d : Vec3) (t : ℝ) : HitRecord :=
  let p := o + t • d
  let outward := (1 / s.radius) • (p - s.center)
  let ff : Bool := if Vec3.dot d outward < 0 then true else false
  { t := t
    p := p
    normal := if ff then outward else -outward
    frontFace := ff
    materialIndex := s.materialIndex }

/-- One iteration of the `closestHit` loop (lines 151-165): state is
(`closestSoFar`, the current record if any). -/
noncomputable def chStep (o d : Vec3) (tMin : ℝ) (st : ℝ × Option HitRecord)
    (s : SphereData) : ℝ × Option HitRecord :=
  let t := hitSphere s o d tMin st.1
  if t > 0 then (t, some (mkHitRecord s o d t)) else st

/-- WGSL `closestHit`: linear scan over the sphere list, shrinking
`closestSoFar`; `none` models the source's `rec.t = -1.0` miss marker. -/
noncomputable def closestHit (spheres : List SphereData) (o d : Vec3)
    (tMin tMax : ℝ) : Option HitRecord :=
  (spheres.foldl (chStep o d tMin) (tMax, none)).2

/-! ## Path integrator (`rayColor`), lines 174-234 -/

/-- The sky gradient of the miss branch (lines 183-185). -/
noncomputable def skyColor (d : Vec3) : Vec3 :=
  let unitDir := Vec3.normalize d
  let t := 1 / 2 * (unitDir.y + 1)
  (1 - t) • (⟨1, 1, 1⟩ : Vec3) + t • (⟨1 / 2, 7 / 10, 1⟩ : Vec3)

/-- The direction chosen by the dielectric branch (lines 213-225) given
the unit incoming direction, the (already flipped) surface normal, the
refraction ratio and the `rand()` draw of the Schlick test.  When total
internal reflection forces a reflect the draw is ignored, matching the
short-circuit `||` of the source. -/
noncomputable def dielectricDirection (unitDir n : Vec3) (eta draw : ℝ) : Vec3 :=
  let cosTheta := min (Vec3.dot (-unitDir) n) 1
  let sinTheta := Real.sqrt (1 - cosTheta * cosTheta)
  if eta * sinTheta > 1 ∨ reflectance cosTheta eta > draw
  then reflect unitDir n
  else refract unitDir n eta

/-- The material record used when `rec.materialIndex` is out of range: a
caller contract in the source (undefined behaviour); `materialType = 3`
matches no branch, so the bounce leaves the ray unchanged. -/
def defaultMaterial : MaterialData := ⟨⟨0, 0, 0⟩, 3, 0, 0⟩

/-- The `rayColor` bounce loop (lines 179-231), by recursion on the
remaining iteration count; state: current origin, current direction,
throughput, RNG cursor. -/
noncomputable def rayColorGo (spheres : List SphereData) (mats : List MaterialData)
    (draws : ℕ → ℝ) (fuel : ℕ) : ℕ → Vec3 → Vec3 → Vec3 → ℕ → Vec3
  | 0, _, _, _, _ => ⟨0, 0, 0⟩
  | depth + 1, o, d, throughput, k =>
    match closestHit spheres o d (1 / 1000) (10 ^ 30) with
    | none => throughput * skyColor d
    | some rec =>
      let m := mats.getD rec.materialIndex defaultMaterial
      if m.materialType = 0 then
        let r := rand_unit_vector draws fuel k
        let scatterDir := rec.normal + r.1
        let scatterDir2 := if near_zero scatterDir then rec.normal else scatterDir
        rayColorGo spheres mats draws fuel depth rec.p scatterDir2
          (throughput * m.albedo) r.2
      else if m.materialType = 1 then
        let r := rand_in_unit_sphere draws fuel k
        let scattered := reflect d rec.normal + m.fuzz • r.1
        if Vec3.dot scattered rec.normal ≤ 0 then ⟨0, 0, 0⟩
        else
          rayColorGo spheres mats draws fuel depth rec.p scattered
            (throughput * m.albedo) r.2
      else if m.materialType = 2 then
        let eta := if rec.frontFace then 1 / m.refractionIndex else m.refractionIndex
        let unitDir := Vec3.normalize d
        let cosTheta := min (Vec3.dot (-unitDir) rec.normal) 1
        let sinTheta := Real.sqrt (1 - cosTheta * cosTheta)
        let direction := dielectricDirection unitDir rec.normal eta (draws k)
        let kNext := if eta * sinTheta > 1 then k else k + 1
        rayColorGo spheres mats draws fuel depth rec.p direction
          (throughput * m.albedo) kNext
      else
        rayColorGo spheres mats draws fuel depth o d throughput k

/-- WGSL `rayColor(rayOrigin, rayDir, depth)`, with throughput started at
`(1,1,1)` and the RNG cursor at `k0`. -/
noncomputable def rayColor (spheres : List SphereData) (mats : List MaterialData)
    (draws : ℕ → ℝ) (fuel : ℕ) (o d : Vec3) (depth k0 : ℕ) : Vec3 :=
  rayColorGo spheres mats draws fuel depth o d ⟨1, 1, 1⟩ k0

/-! ## Compute entry point (`main`), lines 236-272 -/

/-- The kernel's `Uniforms` record (padding omitted); every field is a
`u32`, kept reduced `% 2^32` by the host serialization. -/
structure Uniforms where
  width : ℕ
  height : ℕ
  frameIndex : ℕ
  maxBounces : ℕ
  numSpheres : ℕ
  numMaterials : ℕ
  sampleCount : ℕ

/-- The kernel's `CameraData` record (padding omitted). -/
structure CameraData where
  origin : Vec3
  lowerLeftCorner : Vec3
  horizontal : Vec3
  vertical : Vec3
  u : Vec3
  v : Vec3
  w : Vec3
  lensRadius : ℝ

/-- The stream of successive `rand()` results after the per-pixel
seeding: the `(i+1)`-st call hashes the state `i+1` times and returns the
new state over `0xffffffff`, as exact reals. -/
noncomputable def kernelDraws (seed : ℕ) (i : ℕ) : ℝ :=
  (rngStateAt seed (i + 1) : ℝ) / 4294967295

/-- The local `sampleCount` at the end of the kernel's sampling loop: the
uniform value plus the loop's single `sampleCount += 1u`, in wrapping
`u32` arithmetic.  This is the divisor of the output average. -/
def kernelDivisor (u : ℕ) : ℕ := (u + 1) % 2 ^ 32

/-- WGSL `clamp(x, 0.0, 1.0)` on one component. -/
def clamp01 (x : ℝ) : ℝ := max 0 (min x 1)

/-- The gamma correction `pow(clamp(avg, 0, 1), 1/2.2)` of line 269
(`1/2.2 = 5/11` exactly). -/
noncomputable def gammaCorrect (a : Vec3) : Vec3 :=
  ⟨Real.rpow (clamp01 a.x) (5 / 11), Real.rpow (clamp01 a.y) (5 / 11),
    Real.rpow (clamp01 a.z) (5 / 11)⟩

/-- What one in-bounds kernel invocation leaves behind: the new
accumulation cell, the local sample count used as divisor, and the color
written to the output texture. -/
structure MainResult where
  accum : Vec3
  count : ℕ
  outColor : Vec3

/-- The single `rayColor` sample of this dispatch for pixel `(px, py)`:
the body of the kernel's sampling loop (lines 254-260), after the
per-pixel seeding of line 244 and the lens sampling of lines 250-251. -/
noncomputable def pixelSampleColor (uniforms : Uniforms) (camera : CameraData)
    (spheres : List SphereData) (mats : List MaterialData) (fuel : ℕ)
    (px py : ℕ) : Vec3 :=
  let seed := pcg_hash ((px + py * uniforms.width +
    uniforms.frameIndex * uniforms.width * uniforms.height) % 2 ^ 32)
  let draws := kernelDraws seed
  let rdPair := rand_in_unit_disk draws fuel 0
  let rd := camera.lensRadius • rdPair.1
  let offset := rd.x • camera.u + rd.y • camera.v
  let k1 := rdPair.2
  let u := ((px : ℝ) + draws k1) / (uniforms.width : ℝ)
  let v := ((py : ℝ) + draws (k1 + 1)) / (uniforms.height : ℝ)
  let rayDir := camera.lowerLeftCorner + u • camera.horizontal +
    v • camera.vertical - camera.origin - offset
  let rayOrigin := camera.origin + offset
  rayColor spheres mats draws fuel rayOrigin rayDir uniforms.maxBounces (k1 + 2)

/-- One in-bounds invocation of the kernel `main` for pixel
`(px, py)` (lines 244-271).  The sampling loop
`for (var s = 0u; s < 1u; s++)` executes its body exactly once and is
unrolled here; its `sampleCount += 1u` is `kernelDivisor`. -/
noncomputable def mainPixel (uniforms : Uniforms) (camera : CameraData)
    (spheres : List SphereData) (mats : List MaterialData) (fuel : ℕ)
    (px py : ℕ) (prevAccum : Vec3) : MainResult :=
  let accumulatedColor :=
    prevAccum + pixelSampleColor uniforms camera spheres mats fuel px py
  let sampleCount := kernelDivisor uniforms.sampleCount
  let avgColor := (1 / (sampleCount : ℝ)) • accumulatedColor
  ⟨accumulatedColor, sampleCount, gammaCorrect avgColor⟩

/-! ## Host renderer (`Raytracer.ts`) -/

/-- The host-side render settings (`RenderSettings` in `scene.ts`). -/
structure RenderSettings where
  width : ℕ
  height : ℕ
  samplesPerFrame : ℕ
  maxBounces : ℕ

/-- The host-side scene, already in kernel layout (the flat-buffer
serialization of `buildSphereData` / `buildMaterialData` /
`buildCameraData` is value-preserving and out of claim scope). -/
structure Scene where
  spheres : List SphereData
  materials : List MaterialData
  camera : CameraData

/-- The mutable state of a `Raytracer` instance: the two host counters
and the two textures, each texture a pixel-indexed map. -/
structure RaytracerState where
  frameIndex : ℕ
  sampleCount : ℕ
  accum : ℕ × ℕ → Vec3
  output : ℕ × ℕ → Vec3

/-- The uniform buffer written by `Raytracer.render` (lines 169-172):
every entry passes through a `Uint32Array`, hence is reduced `% 2^32`;
note `settings.samplesPerFrame` is not among the entries. -/
def renderUniforms (scene : Scene) (settings : RenderSettings)
    (st : RaytracerState) : Uniforms :=
  { width := settings.width % 2 ^ 32
    height := settings.height % 2 ^ 32
    frameIndex := st.frameIndex % 2 ^ 32
    maxBounces := settings.maxBounces % 2 ^ 32
    numSpheres := scene.spheres.length % 2 ^ 32
    numMaterials := scene.materials.length % 2 ^ 32
    sampleCount := st.sampleCount % 2 ^ 32 }

/-- `Raytracer.render` (lines 166-199): write the uniforms (each value a
`u32`, so reduced `% 2^32`) with the counters as they are on entry,
dispatch the kernel over the image (the kernel's bounds check leaves
out-of-range pixels untouched), then advance `frameIndex` by one and
`sampleCount` by the full `settings.samplesPerFrame`, returning the new
`sampleCount`. -/
noncomputable def render (scene : Scene) (settings : RenderSettings) (fuel : ℕ)
    (st : RaytracerState) : RaytracerState × ℕ :=
  let uniforms := renderUniforms scene settings st
  let run := fun p : ℕ × ℕ =>
    mainPixel uniforms scene.camera scene.spheres scene.materials fuel p.1 p.2
      (st.accum p)
  let inBounds := fun p : ℕ × ℕ => p.1 < uniforms.width ∧ p.2 < uniforms.height
  let st2 : RaytracerState :=
    { frameIndex := st.frameIndex + 1
      sampleCount := st.sampleCount + settings.samplesPerFrame
      accum := fun p => if inBounds p then (run p).accum else st.accum p
      output := fun p => if inBounds p then (run p).outColor else st.output p }
  (st2, st2.sampleCount)

/-- `Raytracer.resetAccumulation` (lines 201-211): zero both counters and
replace the accumulation texture by a freshly created one (zero-filled,
as WebGPU zero-initializes new textures).  The output texture is not
touched. -/
def resetAccumulation (st : RaytracerState) : RaytracerState :=
  { frameIndex := 0
    sampleCount := 0
    accum := fun _ => 0
    output := st.output }

/-- A unit sphere at the origin with material `0`, for concrete
evaluations. -/
def demoSphereA : SphereData := ⟨⟨0, 0, 0⟩, 1, 0⟩

/-- The same geometry with material `1`: hit at exactly the same `t`. -/
def demoSphereB : SphereData := ⟨⟨0, 0, 0⟩, 1, 1⟩

/-! # Theorems

General-purpose lemmas first, then one theorem per claim (with its
witness or counterexample where required). -/

namespace Vec3

@[simp] theorem add_def (a b : Vec3) :
    a + b = ⟨a.x + b.x, a.y + b.y, a.z + b.z⟩ := rfl

@[simp] theorem sub_def (a b : Vec3) :
    a - b = ⟨a.x - b.x, a.y - b.y, a.z - b.z⟩ := rfl

@[simp] theorem neg_def (a : Vec3) : -a = ⟨-a.x, -a.y, -a.z⟩ := rfl

@[simp] theorem mul_def (a b : Vec3) :
    a * b = ⟨a.x * b.x, a.y * b.y, a.z * b.z⟩ := rfl

@[simp] theorem smul_def (s : ℝ) (a : Vec3) :
    s • a = ⟨s * a.x, s * a.y, s * a.z⟩ := rfl

@[simp] theorem zero_def : (0 : Vec3) = ⟨0, 0, 0⟩ := rfl

@[simp] theorem dot_mk (ax ay az bx by' bz : ℝ) :
    dot ⟨ax, ay, az⟩ ⟨bx, by', bz⟩ = ax * bx + ay * by' + az * bz := rfl

theorem dot_neg_right (a b : Vec3) : dot a (-b) = -dot a b := by
  simp [dot]; ring

theorem dot_smul_right (s : ℝ) (a b : Vec3) : dot a (s • b) = s * dot a b := by
  simp [dot]; ring

end Vec3

theorem shiftRight_le_self (a s : ℕ) : a >>> s ≤ a := by
  rw [Nat.shiftRight_eq_div_pow]
  exact Nat.div_le_self _ _

theorem pcg_hash_lt (input : ℕ) : pcg_hash input < 2 ^ 32 := by
  unfold pcg_hash
  set word := (((((input * 747796405 + 2891336453) % 2 ^ 32) >>>
      ((((input * 747796405 + 2891336453) % 2 ^ 32) >>> 28) + 4)) ^^^
      ((input * 747796405 + 2891336453) % 2 ^ 32)) * 277803737) % 2 ^ 32 with hword
  have hw : word < 2 ^ 32 := Nat.mod_lt _ (by norm_num)
  exact Nat.xor_lt_two_pow (lt_of_le_of_lt (shiftRight_le_self word 22) hw) hw

/-! ## C7: the RNG -/

/-- C7 (counterexample): the claim says `rand()` always returns a value in
the half-open interval `[0, 1)`.  It does not: the divisor is
`0xffffffff = 2^32 - 1`, the largest value the state can take, so any
state that hashes to `0xffffffff` makes `rand()` return exactly `1`.
Seeding with `2222045655` does so on the very first call. -/
theorem rand_unit_interval_counterexample :
    randValue 2222045655 0 = 1 ∧ ¬ randValue 2222045655 0 < 1 := by
  have h : pcg_hash 2222045655 = 4294967295 := by decide
  constructor
  · show (randStep (rngStateAt 2222045655 0)).2 = 1
    simp only [rngStateAt, randStep, h]
    norm_num
  · intro hlt
    have h1 : randValue 2222045655 0 = 1 := by
      show (randStep (rngStateAt 2222045655 0)).2 = 1
      simp only [rngStateAt, randStep, h]
      norm_num
    rw [h1] at hlt
    exact lt_irrefl 1 hlt

/-- C7 (amended): for every seed and at every step, `rand()` returns a
value in the closed interval `[0, 1]` (the right endpoint is attained,
see the counterexample), advancing the state deterministically by the
fixed integer hash `pcg_hash` — the state after `i` calls is
`pcg_hash` iterated `i` times on the seed, with no other input. -/
theorem rand_range_deterministic (seed i : ℕ) :
    0 ≤ randValue seed i ∧ randValue seed i ≤ 1 ∧
      rngStateAt seed (i + 1) = pcg_hash (rngStateAt seed i) ∧
      (randStep (rngStateAt seed i)).1 = rngStateAt seed (i + 1) := by
  refine ⟨?_, ?_, rfl, rfl⟩
  · show 0 ≤ ((pcg_hash (rngStateAt seed i) : ℚ) / 4294967295)
    positivity
  · show ((pcg_hash (rngStateAt seed i) : ℚ) / 4294967295) ≤ 1
    rw [div_le_one (by norm_num)]
    have := pcg_hash_lt (rngStateAt seed i)
    exact_mod_cast Nat.le_of_lt_succ (by norm_num at this ⊢; omega)

/-! ## C8: the rejection samplers have no iteration cap -/

/-- The draw stream in which every `rand()` result is `0` — a value the
generator can produce; the candidate point is then `(-1,-1,-1)` (squared
norm 3) in every iteration of `rand_in_unit_sphere`, and `(-1,-1,0)`
(squared norm 2) in every iteration of `rand_in_unit_disk`. -/
def zeroDraws : ℕ → ℝ := fun _ => 0

/-- C8: the claim says both rejection samplers are guarded by a bounded
iteration cap with a fallback return.  The source loops have no cap: on
the stream of all-zero draws no unrolling depth ever exits the loop —
`sphereSearchLoop` and `diskSearchLoop` return `none` for every fuel, so
the WGSL `loop` spins forever and the trailing `return vec3f(0.0)` is
unreachable. -/
theorem rejection_loops_never_exit :
    ∀ fuel k, sphereSearchLoop zeroDraws fuel k = none ∧
      diskSearchLoop zeroDraws fuel k = none := by
  intro fuel
  induction fuel with
  | zero => intro k; exact ⟨rfl, rfl⟩
  | succ n ih =>
    intro k
    constructor
    · show sphereSearchLoop zeroDraws (n + 1) k = none
      rw [sphereSearchLoop]
      have hdot : Vec3.dot (sphereTrial zeroDraws k) (sphereTrial zeroDraws k) = 3 := by
        simp [sphereTrial, zeroDraws, Vec3.dot]
        norm_num
      rw [if_neg (by rw [hdot]; norm_num)]
      exact (ih (k + 3)).1
    · show diskSearchLoop zeroDraws (n + 1) k = none
      rw [diskSearchLoop]
      have hdot : Vec3.dot (diskTrial zeroDraws k) (diskTrial zeroDraws k) = 2 := by
        simp [diskTrial, zeroDraws, Vec3.dot]
        norm_num
      rw [if_neg (by rw [hdot]; norm_num)]
      exact (ih (k + 2)).2

/-! ## C9: reset and the output buffer -/

/-- A concrete renderer state whose output texture holds mid-gray. -/
noncomputable def demoState : RaytracerState :=
  ⟨3, 7, fun _ => ⟨1, 1, 1⟩, fun _ => ⟨1 / 2, 1 / 2, 1 / 2⟩⟩

/-- C9 (counterexample): the claim says resetting accumulation and then
immediately reading the output buffer yields all-black.
`resetAccumulation` does not touch the output texture, so the stale image
is still there: for a state whose output pixel `(0,0)` is mid-gray, it is
still mid-gray after the reset. -/
theorem reset_output_stale_counterexample :
    (resetAccumulation demoState).output (0, 0) ≠ (⟨0, 0, 0⟩ : Vec3) := by
  intro h
  have hx : (1 / 2 : ℝ) = 0 := congrArg Vec3.x h
  norm_num at hx

/-- C9 (amended): resetting accumulation zeroes every accumulation cell
and both host counters but leaves the output buffer unchanged; there is
no explicit zero-sample output policy — the division by zero at
`sampleCount = 0` is avoided because the kernel divides by
`uniforms.sampleCount + 1`, which equals `1` on the first dispatch after
a reset. -/
theorem reset_state (st : RaytracerState) (p : ℕ × ℕ) :
    (resetAccumulation st).accum p = (⟨0, 0, 0⟩ : Vec3) ∧
      (resetAccumulation st).sampleCount = 0 ∧
      (resetAccumulation st).frameIndex = 0 ∧
      (resetAccumulation st).output = st.output ∧
      kernelDivisor ((resetAccumulation st).sampleCount % 2 ^ 32) = 1 := by
  refine ⟨rfl, rfl, rfl, rfl, ?_⟩
  simp [resetAccumulation, kernelDivisor]

/-! ## C10: the kernel divisor is never zero (except at the u32 wrap) -/

/-- C10: in every dispatch the divisor of the displayed average is the
local `sampleCount`, which is `uniforms.sampleCount + 1` in wrapping
`u32` arithmetic; it is at least `1` for every `u32` value except
`0xffffffff`, and in particular equals `1` on the first dispatch after a
reset (host counter `0`), even though the kernel has no explicit
zero-sample guard. -/
theorem mainPixel_divisor_pos (uniforms : Uniforms) (camera : CameraData)
    (spheres : List SphereData) (mats : List MaterialData) (fuel px py : ℕ)
    (prevAccum : Vec3) (st : RaytracerState)
    (hu : uniforms.sampleCount < 2 ^ 32)
    (hne : uniforms.sampleCount ≠ 2 ^ 32 - 1) :
    (mainPixel uniforms camera spheres mats fuel px py prevAccum).count =
      kernelDivisor uniforms.sampleCount ∧
      1 ≤ kernelDivisor uniforms.sampleCount ∧
      kernelDivisor ((resetAccumulation st).sampleCount % 2 ^ 32) = 1 := by
  refine ⟨rfl, ?_, ?_⟩
  · unfold kernelDivisor
    have h1 : uniforms.sampleCount + 1 < 2 ^ 32 := by omega
    rw [Nat.mod_eq_of_lt h1]
    omega
  · simp [resetAccumulation, kernelDivisor]

/-- Witness for C10 at `uniforms.sampleCount = 0`. -/
theorem mainPixel_divisor_pos_witness :
    (0 : ℕ) < 2 ^ 32 ∧ (0 : ℕ) ≠ 2 ^ 32 - 1 ∧
      ((mainPixel ⟨8, 8, 0, 0, 0, 0, 0⟩ ⟨0, 0, 0, 0, 0, 0, 0, 0⟩ [] [] 0 0 0
        0).count = kernelDivisor 0 ∧
        1 ≤ kernelDivisor 0 ∧
        kernelDivisor ((resetAccumulation demoState).sampleCount % 2 ^ 32) = 1) :=
  ⟨by norm_num, by norm_num,
    mainPixel_divisor_pos ⟨8, 8, 0, 0, 0, 0, 0⟩ ⟨0, 0, 0, 0, 0, 0, 0, 0⟩ [] [] 0 0 0
      0 demoState (by norm_num) (by norm_num)⟩

/-! ## C2: one kernel sample per dispatch, full host increment -/

/-- C2: in every call of `render`, the dispatched kernel adds exactly one
new sample (`pixelSampleColor`) to each in-bounds pixel's accumulation
cell, and the per-pixel accumulation result does not depend on
`settings.samplesPerFrame` at all, while the host-side counter returned
by `render` is advanced by the full `settings.samplesPerFrame`. -/
theorem render_samples (scene : Scene) (settings : RenderSettings) (fuel : ℕ)
    (st : RaytracerState) (p : ℕ × ℕ)
    (hx : p.1 < (renderUniforms scene settings st).width)
    (hy : p.2 < (renderUniforms scene settings st).height) :
    (render scene settings fuel st).2 = st.sampleCount + settings.samplesPerFrame ∧
      (render scene settings fuel st).1.sampleCount =
        st.sampleCount + settings.samplesPerFrame ∧
      (render scene settings fuel st).1.accum p =
        st.accum p + pixelSampleColor (renderUniforms scene settings st)
          scene.camera scene.spheres scene.materials fuel p.1 p.2 ∧
      ∀ spf1 spf2 : ℕ,
        (render scene { settings with samplesPerFrame := spf1 } fuel st).1.accum =
          (render scene { settings with samplesPerFrame := spf2 } fuel st).1.accum := by
  refine ⟨rfl, rfl, ?_, ?_⟩
  · show (if p.1 < (renderUniforms scene settings st).width ∧
        p.2 < (renderUniforms scene settings st).height then _ else _) = _
    rw [if_pos ⟨hx, hy⟩]
    rfl
  · intro spf1 spf2
    rfl

/-- Witness for C2: with the host counter at `7` and
`samplesPerFrame = 5`, `render` returns `12`. -/
theorem render_samples_witness :
    (render ⟨[], [], ⟨0, 0, 0, 0, 0, 0, 0, 0⟩⟩ ⟨8, 8, 5, 3⟩ 0 demoState).2 = 7 + 5 :=
  (render_samples ⟨[], [], ⟨0, 0, 0, 0, 0, 0, 0, 0⟩⟩ ⟨8, 8, 5, 3⟩ 0 demoState (0, 0)
    (by norm_num [renderUniforms]) (by norm_num [renderUniforms])).1

/-! ## C1: the miss branch of `rayColor` -/

/-- C1 (amended): for every ray that misses every sphere and every
`maxBounces ≥ 1`, `rayColor` returns `throughput * skyColor(dir)` with
the throughput untouched at `(1,1,1)` — so exactly `skyColor(dir)`.
(The original claim also allowed `maxBounces = 0`, where the loop body
never runs and the source returns black; see the counterexample.) -/
theorem rayColor_miss_sky (spheres : List SphereData) (mats : List MaterialData)
    (draws : ℕ → ℝ) (fuel : ℕ) (o d : Vec3) (depth k0 : ℕ)
    (hdepth : 1 ≤ depth)
    (hmiss : closestHit spheres o d (1 / 1000) (10 ^ 30) = none) :
    rayColor spheres mats draws fuel o d depth k0 =
      (⟨1, 1, 1⟩ : Vec3) * skyColor d ∧
      (⟨1, 1, 1⟩ : Vec3) * skyColor d = skyColor d := by
  constructor
  · obtain ⟨n, rfl⟩ : ∃ n, depth = n + 1 := ⟨depth - 1, by omega⟩
    rw [rayColor, rayColorGo, hmiss]
  · ext <;> simp

/-- C1 (counterexample): with `maxBounces = 0` — a value the claim allows
— the bounce loop never runs, so `rayColor` returns black even for a ray
that misses every sphere (the empty scene), not the sky color. -/
theorem rayColor_zero_bounces_counterexample :
    rayColor [] [] zeroDraws 0 ⟨0, 0, 0⟩ ⟨0, 1, 0⟩ 0 0 = (⟨0, 0, 0⟩ : Vec3) ∧
      rayColor [] [] zeroDraws 0 ⟨0, 0, 0⟩ ⟨0, 1, 0⟩ 0 0 ≠
        (⟨1, 1, 1⟩ : Vec3) * skyColor ⟨0, 1, 0⟩ := by
  have hsky : skyColor ⟨0, 1, 0⟩ = ⟨1 / 2, 7 / 10, 1⟩ := by
    simp only [skyColor, Vec3.normalize, Vec3.length, Vec3.dot]
    norm_num [Real.sqrt_one]
  refine ⟨rfl, ?_⟩
  intro h
  rw [hsky] at h
  have hx : (0 : ℝ) = 1 * (1 / 2) := congrArg Vec3.x h
  norm_num at hx

/-- Witness for C1 on the empty scene with one bounce allowed. -/
theorem rayColor_miss_sky_witness :
    (1 ≤ 1) ∧
      closestHit [] ⟨0, 0, 0⟩ ⟨0, 2, 0⟩ (1 / 1000) (10 ^ 30) = none ∧
      (rayColor [] [] zeroDraws 0 ⟨0, 0, 0⟩ ⟨0, 2, 0⟩ 1 0 =
        (⟨1, 1, 1⟩ : Vec3) * skyColor ⟨0, 2, 0⟩ ∧
        (⟨1, 1, 1⟩ : Vec3) * skyColor ⟨0, 2, 0⟩ = skyColor ⟨0, 2, 0⟩) :=
  ⟨le_refl 1, rfl,
    rayColor_miss_sky [] [] zeroDraws 0 ⟨0, 0, 0⟩ ⟨0, 2, 0⟩ 1 0 (le_refl 1) rfl⟩

/-! ## C6: total internal reflection always reflects -/

/-- C6: whenever the refraction ratio times `sinTheta` exceeds `1` (total
internal reflection), the dielectric branch chooses the reflect
direction for every possible RNG draw — the Schlick test is
short-circuited and the refract branch is never taken. -/
theorem dielectric_tir (unitDir n : Vec3) (eta draw : ℝ)
    (h : eta * Real.sqrt (1 - min (Vec3.dot (-unitDir) n) 1 *
      min (Vec3.dot (-unitDir) n) 1) > 1) :
    dielectricDirection unitDir n eta draw = reflect unitDir n := by
  simp only [dielectricDirection]
  rw [if_pos (Or.inl h)]

/-- Witness for C6: a glass interface (`refractionIndex = 1.5`) being
exited (`frontFace = false`, so the ratio is `3/2`) at `cosTheta = 3/5`:
`3/2 · 4/5 = 6/5 > 1`. -/
theorem dielectric_tir_witness :
    (3 / 2 : ℝ) * Real.sqrt (1 -
        min (Vec3.dot (-(⟨-(4 / 5), -(3 / 5), 0⟩ : Vec3)) ⟨0, 1, 0⟩) 1 *
        min (Vec3.dot (-(⟨-(4 / 5), -(3 / 5), 0⟩ : Vec3)) ⟨0, 1, 0⟩) 1) > 1 ∧
      dielectricDirection ⟨-(4 / 5), -(3 / 5), 0⟩ ⟨0, 1, 0⟩ (3 / 2) 0 =
        reflect ⟨-(4 / 5), -(3 / 5), 0⟩ ⟨0, 1, 0⟩ := by
  have hdot : Vec3.dot (-(⟨-(4 / 5), -(3 / 5), 0⟩ : Vec3)) ⟨0, 1, 0⟩ = 3 / 5 := by
    norm_num [Vec3.dot]
  have h : (3 / 2 : ℝ) * Real.sqrt (1 -
      min (Vec3.dot (-(⟨-(4 / 5), -(3 / 5), 0⟩ : Vec3)) ⟨0, 1, 0⟩) 1 *
      min (Vec3.dot (-(⟨-(4 / 5), -(3 / 5), 0⟩ : Vec3)) ⟨0, 1, 0⟩) 1) > 1 := by
    rw [hdot, min_eq_left (by norm_num)]
    rw [show (1 : ℝ) - 3 / 5 * (3 / 5) = (4 / 5) ^ 2 by norm_num,
      Real.sqrt_sq (by norm_num : (0 : ℝ) ≤ 4 / 5)]
    norm_num
  exact ⟨h, dielectric_tir _ _ _ _ h⟩

/-! ## Analysis of `hitSphere` -/

/-- `hitSphere` written through the named quadratic pieces (definitional
repackaging of the source's `let` chain). -/
theorem hitSphere_eq_def (s : SphereData) (o d : Vec3) (tMin tMax : ℝ) :
    hitSphere s o d tMin tMax =
      if hsDisc s o d < 0 then -1
      else if hsR1 s o d < tMin ∨ hsR1 s o d > tMax then
        if hsR2 s o d < tMin ∨ hsR2 s o d > tMax then -1 else hsR2 s o d
      else hsR1 s o d := rfl

theorem hsR1_le_hsR2 (s : SphereData) (o d : Vec3) (ha : 0 < hsA d) :
    hsR1 s o d ≤ hsR2 s o d := by
  unfold hsR1 hsR2
  have hs := Real.sqrt_nonneg (hsDisc s o d)
  rw [div_le_div_iff ha ha]
  nlinarith

/-- Any non-`-1` return value of `hitSphere` lies in `[tMin, tMax]`. -/
theorem hitSphere_range (s : SphereData) (o d : Vec3) (tMin tMax : ℝ)
    (h : hitSphere s o d tMin tMax ≠ -1) :
    tMin ≤ hitSphere s o d tMin tMax ∧ hitSphere s o d tMin tMax ≤ tMax := by
  rw [hitSphere_eq_def] at h ⊢
  by_cases h1 : hsDisc s o d < 0
  · rw [if_pos h1] at h; exact absurd rfl h
  · rw [if_neg h1] at h ⊢
    by_cases h2 : hsR1 s o d < tMin ∨ hsR1 s o d > tMax
    · rw [if_pos h2] at h ⊢
      by_cases h3 : hsR2 s o d < tMin ∨ hsR2 s o d > tMax
      · rw [if_pos h3] at h; exact absurd rfl h
      · rw [if_neg h3] at h ⊢
        push_neg at h3
        exact ⟨h3.1, h3.2⟩
    · rw [if_neg h2] at h ⊢
      push_neg at h2
      exact ⟨h2.1, h2.2⟩

/-- With a positive `tMin`, a non-`-1` return value is positive. -/
theorem hitSphere_pos (s : SphereData) (o d : Vec3) (tMin tMax : ℝ)
    (htMin : 0 < tMin) (h : hitSphere s o d tMin tMax ≠ -1) :
    0 < hitSphere s o d tMin tMax :=
  lt_of_lt_of_le htMin (hitSphere_range s o d tMin tMax h).1

/-- With a positive `tMin`, a non-positive return value is exactly the
`-1` miss marker. -/
theorem hitSphere_eq_neg_one (s : SphereData) (o d : Vec3) (tMin tMax : ℝ)
    (htMin : 0 < tMin) (h : ¬ 0 < hitSphere s o d tMin tMax) :
    hitSphere s o d tMin tMax = -1 := by
  by_contra hne
  exact h (hitSphere_pos s o d tMin tMax htMin hne)

/-- Shrinking `tMax` to `cs` can only keep the result or move it to a
root no larger than the full-range result; if the shrunk search misses
entirely, the full-range hit lies strictly beyond `cs`. -/
theorem hitSphere_shrink (s : SphereData) (o d : Vec3) (tMin cs tMax : ℝ)
    (ha : 0 < hsA d) (htMin : 0 < tMin) (hcs : cs ≤ tMax)
    (ht : hitSphere s o d tMin tMax ≠ -1) :
    (hitSphere s o d tMin cs ≠ -1 →
      hitSphere s o d tMin cs ≤ hitSphere s o d tMin tMax) ∧
    (hitSphere s o d tMin cs = -1 → cs < hitSphere s o d tMin tMax) := by
  have h12 := hsR1_le_hsR2 s o d ha
  by_cases h1 : hsDisc s o d < 0
  · rw [hitSphere_eq_def, if_pos h1] at ht
    exact absurd rfl ht
  · by_cases hf1 : hsR1 s o d < tMin ∨ hsR1 s o d > tMax
    · by_cases hf2 : hsR2 s o d < tMin ∨ hsR2 s o d > tMax
      · rw [hitSphere_eq_def, if_neg h1, if_pos hf1, if_pos hf2] at ht
        exact absurd rfl ht
      · -- full range rejects r1 and returns r2
        have hT : hitSphere s o d tMin tMax = hsR2 s o d := by
          rw [hitSphere_eq_def, if_neg h1, if_pos hf1, if_neg hf2]
        push_neg at hf2
        -- since r1 ≤ r2 ≤ tMax, the rejection of r1 means r1 < tMin
        have hr1lt : hsR1 s o d < tMin := by
          rcases hf1 with h | h
          · exact h
          · linarith
        rw [hT, hitSphere_eq_def, if_neg h1]
        by_cases hc1 : hsR1 s o d < tMin ∨ hsR1 s o d > cs
        · rw [if_pos hc1]
          by_cases hc2 : hsR2 s o d < tMin ∨ hsR2 s o d > cs
          · rw [if_pos hc2]
            refine ⟨fun hne => absurd rfl hne, fun _ => ?_⟩
            rcases hc2 with h | h
            · linarith
            · linarith
          · rw [if_neg hc2]
            push_neg at hc2
            refine ⟨fun _ => le_refl _, fun heq => ?_⟩
            rw [heq] at hc2
            linarith [hc2.1]
        · push_neg at hc1
          exact absurd hc1.1 (not_le.mpr hr1lt)
    · -- full range accepts r1
      have hT : hitSphere s o d tMin tMax = hsR1 s o d := by
        rw [hitSphere_eq_def, if_neg h1, if_neg hf1]
      push_neg at hf1
      rw [hT, hitSphere_eq_def, if_neg h1]
      by_cases hc1 : hsR1 s o d < tMin ∨ hsR1 s o d > cs
      · have hr1cs : hsR1 s o d > cs := by
          rcases hc1 with h | h
          · exact absurd h (not_lt.mpr hf1.1)
          · exact h
        rw [if_pos hc1]
        by_cases hc2 : hsR2 s o d < tMin ∨ hsR2 s o d > cs
        · rw [if_pos hc2]
          exact ⟨fun hne => absurd rfl hne, fun _ => hr1cs⟩
        · push_neg at hc2
          exfalso
          linarith [hc2.2]
      · rw [if_neg hc1]
        exact ⟨fun _ => le_refl _, fun heq => by
          push_neg at hc1
          rw [heq] at hc1
          linarith [hc1.1]⟩

/-! ## C3: the `hitSphere` root logic -/

/-- C3: for every ray (`a > 0`) and positive `tMin`, `hitSphere` returns
the miss marker exactly when the discriminant is negative, which happens
exactly when the squared closest approach distance `|oc|² - halfB²/a`
exceeds the squared radius; when the discriminant is non-negative it
tests the smaller root first, then the larger, against `[tMin, tMax]`,
returning the first valid one or the miss marker — in particular (last
conjunct), with the origin outside the sphere and both roots in range,
it returns the smaller root, which is positive. -/
theorem hitSphere_spec (s : SphereData) (o d : Vec3) (tMin tMax : ℝ)
    (ha : 0 < hsA d) (htMin : 0 < tMin) :
    (hsDisc s o d < 0 ↔ s.radius * s.radius <
      Vec3.dot (o - s.center) (o - s.center) - hsHalfB s o d * hsHalfB s o d / hsA d) ∧
    (hsDisc s o d < 0 → hitSphere s o d tMin tMax = -1) ∧
    (0 ≤ hsDisc s o d → tMin ≤ hsR1 s o d → hsR1 s o d ≤ tMax →
      hitSphere s o d tMin tMax = hsR1 s o d ∧ 0 < hsR1 s o d ∧
        hsR1 s o d ≤ hsR2 s o d) ∧
    (0 ≤ hsDisc s o d → (hsR1 s o d < tMin ∨ hsR1 s o d > tMax) →
      tMin ≤ hsR2 s o d → hsR2 s o d ≤ tMax →
      hitSphere s o d tMin tMax = hsR2 s o d) ∧
    (0 ≤ hsDisc s o d → (hsR1 s o d < tMin ∨ hsR1 s o d > tMax) →
      (hsR2 s o d < tMin ∨ hsR2 s o d > tMax) →
      hitSphere s o d tMin tMax = -1) ∧
    (0 < hsC s o → 0 ≤ hsDisc s o d →
      tMin ≤ hsR1 s o d → hsR1 s o d ≤ tMax →
      tMin ≤ hsR2 s o d → hsR2 s o d ≤ tMax →
      hitSphere s o d tMin tMax = hsR1 s o d ∧ 0 < hsR1 s o d) := by
  have hsmall : 0 ≤ hsDisc s o d → tMin ≤ hsR1 s o d → hsR1 s o d ≤ tMax →
      hitSphere s o d tMin tMax = hsR1 s o d ∧ 0 < hsR1 s o d ∧
        hsR1 s o d ≤ hsR2 s o d := by
    intro hd hmin hmax
    refine ⟨?_, by linarith, hsR1_le_hsR2 s o d ha⟩
    rw [hitSphere_eq_def, if_neg (not_lt.mpr hd),
      if_neg (by push_neg; exact ⟨hmin, hmax⟩)]
  refine ⟨?_, ?_, hsmall, ?_, ?_, ?_⟩
  · unfold hsDisc hsC
    constructor
    · intro h
      have h' : hsHalfB s o d * hsHalfB s o d / hsA d <
          Vec3.dot (o - s.center) (o - s.center) - s.radius * s.radius := by
        rw [div_lt_iff ha]
        nlinarith
      linarith
    · intro h
      have h' : hsHalfB s o d * hsHalfB s o d / hsA d <
          Vec3.dot (o - s.center) (o - s.center) - s.radius * s.radius := by
        linarith
      rw [div_lt_iff ha] at h'
      nlinarith
  · intro h
    rw [hitSphere_eq_def, if_pos h]
  · intro hd hrej hmin hmax
    rw [hitSphere_eq_def, if_neg (not_lt.mpr hd), if_pos hrej,
      if_neg (by push_neg; exact ⟨hmin, hmax⟩)]
  · intro hd hrej1 hrej2
    rw [hitSphere_eq_def, if_neg (not_lt.mpr hd), if_pos hrej1, if_pos hrej2]
  · intro _ hd hmin1 hmax1 _ _
    exact ⟨(hsmall hd hmin1 hmax1).1, (hsmall hd hmin1 hmax1).2.1⟩

/-! ## Concrete evaluations of the quadratic pieces (shared helpers) -/

theorem demoDisc (mi : ℕ) :
    hsDisc ⟨⟨0, 0, 0⟩, 1, mi⟩ ⟨0, 0, -2⟩ ⟨0, 0, 1⟩ = 1 := by
  norm_num [hsDisc, hsHalfB, hsA, hsC, Vec3.dot]

theorem demoR1 (mi : ℕ) :
    hsR1 ⟨⟨0, 0, 0⟩, 1, mi⟩ ⟨0, 0, -2⟩ ⟨0, 0, 1⟩ = 1 := by
  unfold hsR1
  rw [demoDisc mi, Real.sqrt_one]
  norm_num [hsHalfB, hsA, Vec3.dot]

theorem demoR2 (mi : ℕ) :
    hsR2 ⟨⟨0, 0, 0⟩, 1, mi⟩ ⟨0, 0, -2⟩ ⟨0, 0, 1⟩ = 3 := by
  unfold hsR2
  rw [demoDisc mi, Real.sqrt_one]
  norm_num [hsHalfB, hsA, Vec3.dot]

/-- The demo ray hits the demo sphere geometry at `t = 1` for any
`tMax ≥ 1`. -/
theorem demoHit (mi : ℕ) (tMax : ℝ) (h1 : (1 : ℝ) ≤ tMax) :
    hitSphere ⟨⟨0, 0, 0⟩, 1, mi⟩ ⟨0, 0, -2⟩ ⟨0, 0, 1⟩ (1 / 1000) tMax = 1 := by
  rw [hitSphere_eq_def]
  rw [if_neg (by rw [demoDisc mi]; norm_num)]
  rw [if_neg (by
    rw [demoR1 mi]
    rintro (h | h)
    · norm_num at h
    · linarith)]
  exact demoR1 mi

/-- Witness for C3 on the demo sphere and ray: `a = 1`, `tMin = 1/1000`,
`c = 3 > 0` (origin outside), discriminant `1`, both roots `1` and `3`
inside `[1/1000, 100]`, and the smaller root `1` is returned. -/
theorem hitSphere_spec_witness :
    0 < hsA ⟨0, 0, 1⟩ ∧ (0 : ℝ) < 1 / 1000 ∧ 0 < hsC demoSphereA ⟨0, 0, -2⟩ ∧
      hitSphere demoSphereA ⟨0, 0, -2⟩ ⟨0, 0, 1⟩ (1 / 1000) 100 =
        hsR1 demoSphereA ⟨0, 0, -2⟩ ⟨0, 0, 1⟩ ∧
      0 < hsR1 demoSphereA ⟨0, 0, -2⟩ ⟨0, 0, 1⟩ := by
  have ha : 0 < hsA (⟨0, 0, 1⟩ : Vec3) := by norm_num [hsA, Vec3.dot]
  have hc : 0 < hsC demoSphereA ⟨0, 0, -2⟩ := by
    norm_num [hsC, demoSphereA, Vec3.dot]
  have h := (hitSphere_spec demoSphereA ⟨0, 0, -2⟩ ⟨0, 0, 1⟩ (1 / 1000) 100 ha
    (by norm_num)).2.2.2.2.2 hc
    (by rw [show demoSphereA = ⟨⟨0, 0, 0⟩, 1, 0⟩ from rfl, demoDisc 0]; norm_num)
    (by rw [show demoSphereA = ⟨⟨0, 0, 0⟩, 1, 0⟩ from rfl, demoR1 0]; norm_num)
    (by rw [show demoSphereA = ⟨⟨0, 0, 0⟩, 1, 0⟩ from rfl, demoR1 0]; norm_num)
    (by rw [show demoSphereA = ⟨⟨0, 0, 0⟩, 1, 0⟩ from rfl, demoR2 0]; norm_num)
    (by rw [show demoSphereA = ⟨⟨0, 0, 0⟩, 1, 0⟩ from rfl, demoR2 0]; norm_num)
  exact ⟨ha, by norm_num, hc, h.1, h.2⟩

/-! ## Analysis of `closestHit` -/

theorem mkHitRecord_normal_opposes (s : SphereData) (o d : Vec3) (t : ℝ) :
    Vec3.dot d (mkHitRecord s o d t).normal ≤ 0 := by
  by_cases h : Vec3.dot d ((1 / s.radius) • (o + t • d - s.center)) < 0
  · simp only [mkHitRecord, if_pos h, if_true]
    exact le_of_lt h
  · simp only [mkHitRecord, if_neg h, Bool.false_eq_true, if_false]
    rw [Vec3.dot_neg_right]
    linarith [not_lt.mp h]

theorem mkHitRecord_frontFace (s : SphereData) (o d : Vec3) (t : ℝ) :
    (mkHitRecord s o d t).frontFace = true ↔
      Vec3.dot d ((1 / s.radius) • (o + t • d - s.center)) < 0 := by
  by_cases h : Vec3.dot d ((1 / s.radius) • (o + t • d - s.center)) < 0 <;>
    simp [mkHitRecord, h]

theorem chFold_provenance (o d : Vec3) (tMin : ℝ) (spheres : List SphereData) :
    ∀ l : List SphereData, (∀ x ∈ l, x ∈ spheres) →
      ∀ st : ℝ × Option HitRecord,
        (∀ rec, st.2 = some rec → ∃ s ∈ spheres, ∃ t, rec = mkHitRecord s o d t) →
        ∀ rec, (List.foldl (chStep o d tMin) st l).2 = some rec →
          ∃ s ∈ spheres, ∃ t, rec = mkHitRecord s o d t := by
  intro l
  induction l with
  | nil => intro _ st hst rec h; exact hst rec h
  | cons a l ih =>
    intro hsub st hst rec h
    rw [List.foldl_cons] at h
    refine ih (fun x hx => hsub x (List.mem_cons_of_mem a hx))
      (chStep o d tMin st a) ?_ rec h
    intro rec' h'
    unfold chStep at h'
    by_cases hc : hitSphere a o d tMin st.1 > 0
    · rw [if_pos hc] at h'
      exact ⟨a, hsub a (List.mem_cons_self a l), hitSphere a o d tMin st.1,
        (Option.some.inj h').symm⟩
    · rw [if_neg hc] at h'
      exact hst rec' h'

theorem chFold_state (o d : Vec3) (tMin : ℝ) :
    ∀ (l : List SphereData) (st : ℝ × Option HitRecord),
      (∀ rec, st.2 = some rec → st.1 = rec.t ∧ 0 < rec.t) →
      ∀ rec, (List.foldl (chStep o d tMin) st l).2 = some rec →
        (List.foldl (chStep o d tMin) st l).1 = rec.t ∧ 0 < rec.t := by
  intro l
  induction l with
  | nil => intro st h rec hrec; exact h rec hrec
  | cons a l ih =>
    intro st h
    rw [List.foldl_cons]
    apply ih
    intro rec hrec
    unfold chStep at hrec ⊢
    by_cases hc : hitSphere a o d tMin st.1 > 0
    · rw [if_pos hc] at hrec ⊢
      have heq := Option.some.inj hrec
      constructor
      · rw [← heq]; rfl
      · rw [← heq]; exact hc
    · rw [if_neg hc] at hrec ⊢
      exact h rec hrec

theorem chStep_fst_le (o d : Vec3) (tMin : ℝ) (st : ℝ × Option HitRecord)
    (a : SphereData) : (chStep o d tMin st a).1 ≤ st.1 := by
  unfold chStep
  by_cases hc : hitSphere a o d tMin st.1 > 0
  · rw [if_pos hc]
    have hne : hitSphere a o d tMin st.1 ≠ -1 := by
      intro he; rw [he] at hc; linarith
    exact (hitSphere_range a o d tMin st.1 hne).2
  · rw [if_neg hc]

theorem chFold_fst_le (o d : Vec3) (tMin : ℝ) :
    ∀ (l : List SphereData) (st : ℝ × Option HitRecord),
      (List.foldl (chStep o d tMin) st l).1 ≤ st.1 := by
  intro l
  induction l with
  | nil => intro st; exact le_refl _
  | cons a l ih =>
    intro st
    rw [List.foldl_cons]
    exact le_trans (ih (chStep o d tMin st a)) (chStep_fst_le o d tMin st a)

theorem chFold_le (o d : Vec3) (tMin tMax : ℝ) (ha : 0 < hsA d) (htMin : 0 < tMin) :
    ∀ (l : List SphereData) (st : ℝ × Option HitRecord), st.1 ≤ tMax →
      ∀ s ∈ l, hitSphere s o d tMin tMax ≠ -1 →
        (List.foldl (chStep o d tMin) st l).1 ≤ hitSphere s o d tMin tMax := by
  intro l
  induction l with
  | nil => intro st _ s hs; exact absurd hs (List.not_mem_nil s)
  | cons a l ih =>
    intro st hst s hs hne
    rw [List.foldl_cons]
    rcases List.mem_cons.mp hs with rfl | hmem
    · have hstep : (chStep o d tMin st s).1 ≤ hitSphere s o d tMin tMax := by
        unfold chStep
        by_cases hc : hitSphere s o d tMin st.1 > 0
        · rw [if_pos hc]
          have hne' : hitSphere s o d tMin st.1 ≠ -1 := by
            intro he; rw [he] at hc; linarith
          exact (hitSphere_shrink s o d tMin st.1 tMax ha htMin hst hne).1 hne'
        · rw [if_neg hc]
          have := (hitSphere_shrink s o d tMin st.1 tMax ha htMin hst hne).2
            (hitSphere_eq_neg_one s o d tMin st.1 htMin hc)
          linarith
      exact le_trans (chFold_fst_le o d tMin l (chStep o d tMin st s)) hstep
    · exact ih (chStep o d tMin st a)
        (le_trans (chStep_fst_le o d tMin st a) hst) s hmem hne

/-! ## C4: the reported normal opposes the ray -/

/-- C4: with `tMin > 0`, whenever `closestHit` reports a hit, the record
was built by the accepted-hit branch for some sphere of the list; its
normal satisfies `dot(rayDir, normal) ≤ 0` (flipped when `frontFace` is
false), and `frontFace` is true exactly when the ray direction makes a
negative dot product with the outward normal. -/
theorem closestHit_normal_opposes (spheres : List SphereData) (o d : Vec3)
    (tMin tMax : ℝ) (rec : HitRecord) (htMin : 0 < tMin)
    (h : closestHit spheres o d tMin tMax = some rec) :
    Vec3.dot d rec.normal ≤ 0 ∧
      ∃ s ∈ spheres, ∃ t, rec = mkHitRecord s o d t ∧
        (rec.frontFace = true ↔
          Vec3.dot d ((1 / s.radius) • (o + t • d - s.center)) < 0) := by
  unfold closestHit at h
  obtain ⟨s, hs, t, rfl⟩ := chFold_provenance o d tMin spheres spheres
    (fun x hx => hx) (tMax, none) (by intro rec' h'; simp at h') rec h
  exact ⟨mkHitRecord_normal_opposes s o d t, s, hs, t, rfl,
    mkHitRecord_frontFace s o d t⟩

/-! ## Concrete `closestHit` evaluations (shared helpers) -/

theorem demoHitA (tMax : ℝ) (h1 : (1 : ℝ) ≤ tMax) :
    hitSphere demoSphereA ⟨0, 0, -2⟩ ⟨0, 0, 1⟩ (1 / 1000) tMax = 1 :=
  demoHit 0 tMax h1

theorem demoHitB (tMax : ℝ) (h1 : (1 : ℝ) ≤ tMax) :
    hitSphere demoSphereB ⟨0, 0, -2⟩ ⟨0, 0, 1⟩ (1 / 1000) tMax = 1 :=
  demoHit 1 tMax h1

theorem demoClosestHit1 :
    closestHit [demoSphereA] ⟨0, 0, -2⟩ ⟨0, 0, 1⟩ (1 / 1000) 100 =
      some (mkHitRecord demoSphereA ⟨0, 0, -2⟩ ⟨0, 0, 1⟩ 1) := by
  unfold closestHit
  rw [List.foldl_cons, List.foldl_nil]
  simp only [chStep]
  rw [demoHitA 100 (by norm_num)]
  rw [if_pos (by norm_num : (1 : ℝ) > 0)]

theorem demoClosestHit :
    closestHit [demoSphereA, demoSphereB] ⟨0, 0, -2⟩ ⟨0, 0, 1⟩ (1 / 1000) 100 =
      some (mkHitRecord demoSphereB ⟨0, 0, -2⟩ ⟨0, 0, 1⟩ 1) := by
  unfold closestHit
  rw [List.foldl_cons, List.foldl_cons, List.foldl_nil]
  have s1 : chStep ⟨0, 0, -2⟩ ⟨0, 0, 1⟩ (1 / 1000) (100, none) demoSphereA =
      (1, some (mkHitRecord demoSphereA ⟨0, 0, -2⟩ ⟨0, 0, 1⟩ 1)) := by
    simp only [chStep]
    rw [demoHitA 100 (by norm_num)]
    rw [if_pos (by norm_num : (1 : ℝ) > 0)]
  rw [s1]
  have s2 : chStep ⟨0, 0, -2⟩ ⟨0, 0, 1⟩ (1 / 1000)
      (1, some (mkHitRecord demoSphereA ⟨0, 0, -2⟩ ⟨0, 0, 1⟩ 1)) demoSphereB =
      (1, some (mkHitRecord demoSphereB ⟨0, 0, -2⟩ ⟨0, 0, 1⟩ 1)) := by
    simp only [chStep]
    rw [demoHitB 1 (le_refl 1)]
    rw [if_pos (by norm_num : (1 : ℝ) > 0)]
  rw [s2]

/-- Witness for C4 on the one-sphere demo scene. -/
theorem closestHit_normal_opposes_witness :
    (0 : ℝ) < 1 / 1000 ∧
      Vec3.dot ⟨0, 0, 1⟩
        (mkHitRecord demoSphereA ⟨0, 0, -2⟩ ⟨0, 0, 1⟩ 1).normal ≤ 0 :=
  ⟨by norm_num,
    (closestHit_normal_opposes [demoSphereA] ⟨0, 0, -2⟩ ⟨0, 0, 1⟩ (1 / 1000) 100
      (mkHitRecord demoSphereA ⟨0, 0, -2⟩ ⟨0, 0, 1⟩ 1) (by norm_num)
      demoClosestHit1).1⟩

/-! ## C5: nearest hit and the tie-break direction -/

/-- C5 (amended): `closestHit` scans the list linearly with a shrinking
`closestSoFar` and reports only the nearest hit — the reported `t` is a
lower bound for every sphere's own `hitSphere` result over the full
range; but when a later sphere hits at exactly the current closest `t`
(a tie), the shrunken range test `root > tMax` is not strict, so the
later sphere's record replaces the earlier one: among equal `t` values
the sphere tested last wins, not the one tested first. -/
theorem closestHit_scan (spheres : List SphereData) (o d : Vec3)
    (tMin tMax : ℝ) (ha : 0 < hsA d) (htMin : 0 < tMin) :
    (∀ rec, closestHit spheres o d tMin tMax = some rec →
      ∀ s ∈ spheres, hitSphere s o d tMin tMax ≠ -1 →
        rec.t ≤ hitSphere s o d tMin tMax) ∧
    (∀ l1 s2 rec1, spheres = l1 ++ [s2] →
      closestHit l1 o d tMin tMax = some rec1 →
      hitSphere s2 o d tMin rec1.t = rec1.t →
      closestHit spheres o d tMin tMax =
        some (mkHitRecord s2 o d rec1.t)) := by
  constructor
  · intro rec h s hs hne
    unfold closestHit at h
    have hstate := chFold_state o d tMin spheres (tMax, none)
      (by intro rec' h'; simp at h') rec h
    have hle := chFold_le o d tMin tMax ha htMin spheres (tMax, none)
      (le_refl tMax) s hs hne
    rw [hstate.1] at hle
    exact hle
  · intro l1 s2 rec1 hsp h1 hs2
    subst hsp
    unfold closestHit at h1 ⊢
    rw [List.foldl_append, List.foldl_cons, List.foldl_nil]
    have hstate := chFold_state o d tMin l1 (tMax, none)
      (by intro rec' h'; simp at h') rec1 h1
    simp only [chStep]
    rw [hstate.1, hs2, if_pos hstate.2]

/-- C5 (counterexample to the original tie-break direction): two spheres
with identical geometry are both hit at `t = 1`; `closestHit` reports the
material of the second (last-tested) sphere, not the first-tested one the
claim promises. -/
theorem closestHit_tie_counterexample :
    hitSphere demoSphereA ⟨0, 0, -2⟩ ⟨0, 0, 1⟩ (1 / 1000) 100 =
      hitSphere demoSphereB ⟨0, 0, -2⟩ ⟨0, 0, 1⟩ (1 / 1000) 100 ∧
    (closestHit [demoSphereA, demoSphereB] ⟨0, 0, -2⟩ ⟨0, 0, 1⟩
        (1 / 1000) 100).map HitRecord.materialIndex =
      some demoSphereB.materialIndex ∧
    demoSphereA.materialIndex ≠ demoSphereB.materialIndex := by
  refine ⟨?_, ?_, ?_⟩
  · rw [demoHitA 100 (by norm_num), demoHitB 100 (by norm_num)]
  · rw [demoClosestHit]
    rfl
  · decide

/-- Witness for C5: the nearest-hit bound applied to the two-sphere demo
scene. -/
theorem closestHit_scan_witness :
    0 < hsA ⟨0, 0, 1⟩ ∧ (0 : ℝ) < 1 / 1000 ∧
      (mkHitRecord demoSphereB ⟨0, 0, -2⟩ ⟨0, 0, 1⟩ 1).t ≤
        hitSphere demoSphereA ⟨0, 0, -2⟩ ⟨0, 0, 1⟩ (1 / 1000) 100 := by
  have ha : 0 < hsA (⟨0, 0, 1⟩ : Vec3) := by norm_num [hsA, Vec3.dot]
  refine ⟨ha, by norm_num, ?_⟩
  exact (closestHit_scan [demoSphereA, demoSphereB] ⟨0, 0, -2⟩ ⟨0, 0, 1⟩
      (1 / 1000) 100 ha (by norm_num)).1
    (mkHitRecord demoSphereB ⟨0, 0, -2⟩ ⟨0, 0, 1⟩ 1) demoClosestHit
    demoSphereA (by simp) (by rw [demoHitA 100 (by norm_num)]; norm_num)

end Firefly
